import Mathlib

/-!
Shallow embedding of the priority-notify service core: the SSE fan-out
broker (`app/sse.py`), dual authentication resolution (`app/auth.py`),
token issuance/revocation (`app/routes/tokens.py`) and the notification
update endpoint (`app/routes/notifications.py`).

Python dicts keyed by strings are modelled as association lists,
`asyncio.Queue` objects as queue identifiers (`Nat`) mapped to their
buffered contents, and the bcrypt primitives as function parameters
(`hashpw`, `checkpw`) so that theorems can state exactly the
assumptions the code places on them.
-/

namespace PriorityNotify

/-- A JSON object payload, modelled as a flat string-to-string record
(the only payload shapes the publish call sites build). -/
abbrev JsonObj := List (String × String)

/-- Model of `json.dumps` on a flat string dict, used by `SSEBroker.publish`
to serialise the event payload. The claims never inspect the concrete
serialisation, only that equal payloads serialise equally. -/
def jsonDumps (d : JsonObj) : String :=
  "\x7b" ++ String.intercalate ", "
    (d.map (fun kv => "\x22" ++ kv.1 ++ "\x22: \x22" ++ kv.2 ++ "\x22")) ++ "\x7d"

/-- The event record `{"event": event_type, "data": json.dumps(data)}`
built by `SSEBroker.publish` (src/app/sse.py line 27). -/
structure SSEEvent where
  event : String
  data : String
deriving DecidableEq, Repr

/-- State of the `SSEBroker` (src/app/sse.py lines 10-29).
`subscribers` models the `defaultdict(set)` mapping user id to the set of
queues; queues are named by `Nat` identifiers whose buffered events live
in `queues`; `nextqueue` supplies a fresh identifier per `subscribe`
(modelling allocation of a fresh `asyncio.Queue` object). -/
structure SSEBroker where
  subscribers : List (String × List Nat)
  queues : List (Nat × List SSEEvent)
  nextqueue : Nat
deriving DecidableEq, Repr

/-- The broker as constructed by `SSEBroker.__init__`: empty registry. -/
def SSEBroker.empty : SSEBroker := ⟨[], [], 0⟩

/-- `SSEBroker.subscribe` (src/app/sse.py lines 14-18): allocate a fresh
queue, add it to the user's set (the `defaultdict` creates the entry when
absent), return the handle. -/
def SSEBroker.subscribe (b : SSEBroker) (user_id : String) : SSEBroker × Nat :=
  let q := b.nextqueue
  let subs :=
    match b.subscribers.lookup user_id with
    | some qs => b.subscribers.map (fun p => (p.1, if p.1 = user_id then qs ++ [q] else p.2))
    | none => b.subscribers ++ [(user_id, [q])]
  (⟨subs, b.queues ++ [(q, [])], q + 1⟩, q)

/-- `SSEBroker.unsubscribe` (src/app/sse.py lines 20-24): `discard` the
queue from the user's set, and delete the user's entry when the set
becomes empty. When the user has no entry, the `defaultdict` access
creates an empty set which the `del` immediately removes again, so the
net state is unchanged. -/
def SSEBroker.unsubscribe (b : SSEBroker) (user_id : String) (q : Nat) : SSEBroker :=
  match b.subscribers.lookup user_id with
  | none => b
  | some qs =>
    let qs' := qs.filter (fun x => x ≠ q)
    if qs' = [] then
      { b with subscribers := b.subscribers.filter (fun p => p.1 ≠ user_id) }
    else
      { b with subscribers :=
          b.subscribers.map (fun p => (p.1, if p.1 = user_id then qs' else p.2)) }

/-- `SSEBroker.publish` (src/app/sse.py lines 26-29): build the event and
`put` it on every queue registered for the user;
`self._subscribers.get(user_id, set())` never creates an entry. -/
def SSEBroker.publish (b : SSEBroker) (user_id : String) (event_type : String)
    (data : JsonObj) : SSEBroker :=
  let ev : SSEEvent := ⟨event_type, jsonDumps data⟩
  match b.subscribers.lookup user_id with
  | none => b
  | some qs =>
    { b with queues := b.queues.map (fun p => (p.1, if p.1 ∈ qs then p.2 ++ [ev] else p.2)) }

/-- The user's registered channel set, as `publish` reads it:
`self._subscribers.get(user_id, set())`. -/
def SSEBroker.subscriberQueues (b : SSEBroker) (user_id : String) : List Nat :=
  (b.subscribers.lookup user_id).getD []

/-- Well-formedness of a broker state: every queue handle registered for
some user names a queue that exists in the queue store. Holds for every
state reachable from `SSEBroker.empty`. -/
def SSEBroker.wf (b : SSEBroker) : Prop :=
  ∀ p ∈ b.subscribers, ∀ q ∈ p.2, (b.queues.lookup q).isSome

instance (b : SSEBroker) : Decidable b.wf := by
  unfold SSEBroker.wf; infer_instance

/-- A sequence of `publish` calls for one user, issued in list order. -/
def publishSeq (b : SSEBroker) (user_id : String)
    (events : List (String × JsonObj)) : SSEBroker :=
  events.foldl (fun s e => s.publish user_id e.1 e.2) b

/-! Association-list lemmas used throughout. -/

theorem lookup_map_eq {κ β : Type} [BEq κ] [LawfulBEq κ]
    (l : List (κ × β)) (g : κ → β → β) (k : κ) :
    (l.map (fun p => (p.1, g p.1 p.2))).lookup k = (l.lookup k).map (g k) := by
  induction l with
  | nil => rfl
  | cons hd tl ih =>
    by_cases h : k = hd.1
    · simp [List.lookup, h]
    · have hb : (k == hd.1) = false := beq_false_of_ne h
      simp [List.lookup, hb, ih]

theorem lookup_filter_ne {β : Type} (l : List (String × β)) (k : String) :
    (l.filter (fun p => p.1 ≠ k)).lookup k = none := by
  induction l with
  | nil => rfl
  | cons hd tl ih =>
    obtain ⟨a, v⟩ := hd
    by_cases h : a = k
    · have hf : (decide (¬(a, v).1 = k)) = false := by simp [h]
      rw [List.filter_cons, hf]
      exact ih
    · have hf : (decide (¬(a, v).1 = k)) = true := by simp [h]
      have hb : (k == a) = false := beq_false_of_ne (fun he => h he.symm)
      rw [List.filter_cons, hf]
      simp only [List.lookup, hb]
      exact ih

theorem mem_of_lookup {κ β : Type} [BEq κ] [LawfulBEq κ]
    (l : List (κ × β)) (k : κ) (v : β) (h : l.lookup k = some v) :
    (k, v) ∈ l := by
  induction l with
  | nil => simp [List.lookup] at h
  | cons hd tl ih =>
    obtain ⟨a, w⟩ := hd
    rw [List.lookup] at h
    by_cases hk : (k == a) = true
    · rw [hk] at h
      simp only [Option.some.injEq] at h
      have hka : k = a := eq_of_beq hk
      subst hka
      subst h
      exact List.mem_cons_self _ _
    · rw [Bool.of_not_eq_true hk] at h
      exact List.mem_cons_of_mem _ (ih h)

/-! Basic facts about `publish`. -/

theorem publish_subscribers (b : SSEBroker) (u et : String) (d : JsonObj) :
    (b.publish u et d).subscribers = b.subscribers := by
  unfold SSEBroker.publish
  cases b.subscribers.lookup u <;> rfl

theorem publish_nextqueue (b : SSEBroker) (u et : String) (d : JsonObj) :
    (b.publish u et d).nextqueue = b.nextqueue := by
  unfold SSEBroker.publish
  cases b.subscribers.lookup u <;> rfl

theorem publish_queues_lookup (b : SSEBroker) (u et : String) (d : JsonObj)
    (qs : List Nat) (hqs : b.subscribers.lookup u = some qs) (q : Nat) :
    (b.publish u et d).queues.lookup q =
      (b.queues.lookup q).map
        (fun evs => if q ∈ qs then evs ++ [⟨et, jsonDumps d⟩] else evs) := by
  unfold SSEBroker.publish
  rw [hqs]
  exact lookup_map_eq b.queues (fun k evs => if k ∈ qs then evs ++ [⟨et, jsonDumps d⟩] else evs) q

theorem publish_wf (b : SSEBroker) (u et : String) (d : JsonObj) (hwf : b.wf) :
    (b.publish u et d).wf := by
  intro p hp q hq
  rw [publish_subscribers] at hp
  have hs := hwf p hp q hq
  cases hl : b.subscribers.lookup u with
  | none =>
    simp only [SSEBroker.publish, hl]
    exact hs
  | some qs =>
    rw [publish_queues_lookup b u et d qs hl q]
    simpa using hs

/-! Shape lemmas for `subscribe` and `unsubscribe`. -/

theorem subscribe_eq_some (b : SSEBroker) (u : String) (qs : List Nat)
    (hl : b.subscribers.lookup u = some qs) :
    (b.subscribe u).1 =
      ⟨b.subscribers.map (fun p => (p.1, if p.1 = u then qs ++ [b.nextqueue] else p.2)),
       b.queues ++ [(b.nextqueue, [])], b.nextqueue + 1⟩ := by
  unfold SSEBroker.subscribe
  rw [hl]

theorem subscribe_eq_none (b : SSEBroker) (u : String)
    (hl : b.subscribers.lookup u = none) :
    (b.subscribe u).1 =
      ⟨b.subscribers ++ [(u, [b.nextqueue])], b.queues ++ [(b.nextqueue, [])],
       b.nextqueue + 1⟩ := by
  unfold SSEBroker.subscribe
  rw [hl]

theorem unsubscribe_eq_none (b : SSEBroker) (u : String) (q : Nat)
    (hl : b.subscribers.lookup u = none) :
    b.unsubscribe u q = b := by
  unfold SSEBroker.unsubscribe
  rw [hl]

theorem unsubscribe_eq_some (b : SSEBroker) (u : String) (q : Nat) (qs : List Nat)
    (hl : b.subscribers.lookup u = some qs) :
    b.unsubscribe u q =
      if qs.filter (fun x => x ≠ q) = [] then
        { b with subscribers := b.subscribers.filter (fun p => p.1 ≠ u) }
      else
        { b with subscribers := b.subscribers.map (fun p => (p.1, if p.1 = u then qs.filter (fun x => x ≠ q) else p.2)) } := by
  unfold SSEBroker.unsubscribe
  rw [hl]

theorem publishSeq_subscribers (b : SSEBroker) (u : String)
    (events : List (String × JsonObj)) :
    (publishSeq b u events).subscribers = b.subscribers := by
  induction events generalizing b with
  | nil => rfl
  | cons e es ih =>
    calc (publishSeq b u (e :: es)).subscribers
        = (publishSeq (b.publish u e.1 e.2) u es).subscribers := rfl
      _ = (b.publish u e.1 e.2).subscribers := ih _
      _ = b.subscribers := publish_subscribers _ _ _ _

theorem publishSeq_queue_append (b : SSEBroker) (u : String) (qs : List Nat) (q : Nat)
    (events : List (String × JsonObj)) (evs : List SSEEvent)
    (hwf : b.wf) (hqs : b.subscribers.lookup u = some qs) (hq : q ∈ qs)
    (hcq : b.queues.lookup q = some evs) :
    (publishSeq b u events).queues.lookup q =
      some (evs ++ events.map (fun e => ⟨e.1, jsonDumps e.2⟩)) := by
  induction events generalizing b evs with
  | nil => simpa [publishSeq] using hcq
  | cons e es ih =>
    have hqs' : (b.publish u e.1 e.2).subscribers.lookup u = some qs := by
      rw [publish_subscribers]; exact hqs
    have hcq' : (b.publish u e.1 e.2).queues.lookup q
        = some (evs ++ [⟨e.1, jsonDumps e.2⟩]) := by
      rw [publish_queues_lookup b u e.1 e.2 qs hqs q, hcq]
      simp [hq]
    have hstep := ih (b.publish u e.1 e.2) (evs ++ [⟨e.1, jsonDumps e.2⟩])
      (publish_wf _ _ _ _ hwf) hqs' hcq'
    simpa [publishSeq, List.append_assoc] using hstep

/-- C1: every channel registered for a user at publish time receives every
published event, and each channel receives them in the order the `publish`
calls were issued; the registry itself is untouched by publishing. -/
theorem C1_publish_fanout_in_order (b : SSEBroker) (u : String) (qs : List Nat) (q : Nat)
    (events : List (String × JsonObj))
    (hwf : b.wf) (hqs : b.subscribers.lookup u = some qs) (hq : q ∈ qs) :
    (publishSeq b u events).subscribers = b.subscribers ∧
    ∃ evs, b.queues.lookup q = some evs ∧
      (publishSeq b u events).queues.lookup q =
        some (evs ++ events.map (fun e => ⟨e.1, jsonDumps e.2⟩)) := by
  have hmem : (u, qs) ∈ b.subscribers := mem_of_lookup _ _ _ hqs
  have hsome := hwf (u, qs) hmem q hq
  obtain ⟨evs, hevs⟩ := Option.isSome_iff_exists.mp hsome
  exact ⟨publishSeq_subscribers b u events,
    evs, hevs, publishSeq_queue_append b u qs q events evs hwf hqs hq hevs⟩

/-- A broker with two concurrently subscribed channels of the same user,
for exercising the fan-out theorems on a concrete state. -/
def brokerW : SSEBroker := ((SSEBroker.empty.subscribe "u").1.subscribe "u").1

/-- Witness for C1 on a concrete broker: user `u` holds channels 0 and 1,
and channel 0 receives both published events in publish order. -/
theorem C1_publish_fanout_in_order_witness :
    (publishSeq brokerW "u" [("notification", [("n", "1")]), ("notification", [("n", "2")])]).subscribers
        = brokerW.subscribers ∧
    ∃ evs, brokerW.queues.lookup 0 = some evs ∧
      (publishSeq brokerW "u"
          [("notification", [("n", "1")]), ("notification", [("n", "2")])]).queues.lookup 0 =
        some (evs ++ [("notification", [("n", "1")]), ("notification", [("n", "2")])].map
          (fun e => ⟨e.1, jsonDumps e.2⟩)) :=
  C1_publish_fanout_in_order brokerW "u" [0, 1] 0
    [("notification", [("n", "1")]), ("notification", [("n", "2")])]
    (by decide) (by decide) (by decide)

/-- C2: publishing for a user with zero registered channels is a complete
no-op: no error, nothing delivered, and the registry and queue store are
bit-for-bit unchanged (no entry is created for the user). -/
theorem C2_publish_without_subscribers (b : SSEBroker) (u et : String) (d : JsonObj)
    (h : b.subscriberQueues u = []) :
    b.publish u et d = b := by
  unfold SSEBroker.publish
  cases hl : b.subscribers.lookup u with
  | none => rfl
  | some qs =>
    have hqs : qs = [] := by simpa [SSEBroker.subscriberQueues, hl] using h
    subst hqs
    simp

/-- Witness for C2: publishing for user `v`, who has no channels on the
concrete broker, leaves the broker unchanged. -/
theorem C2_publish_without_subscribers_witness :
    brokerW.publish "v" "notification" [("n", "1")] = brokerW :=
  C2_publish_without_subscribers brokerW "v" "notification" [("n", "1")] (by decide)

/-- C3: calling `unsubscribe` a second time with the same user id and
handle is a no-op: no error, and the registry is exactly the state left
by the first call. Proved with no side conditions, so it also covers a
handle that was never registered. -/
theorem C3_unsubscribe_idempotent (b : SSEBroker) (u : String) (q : Nat) :
    (b.unsubscribe u q).unsubscribe u q = b.unsubscribe u q := by
  cases hl : b.subscribers.lookup u with
  | none =>
    rw [unsubscribe_eq_none b u q hl, unsubscribe_eq_none b u q hl]
  | some qs =>
    rw [unsubscribe_eq_some b u q qs hl]
    by_cases hq : qs.filter (fun x => x ≠ q) = []
    · rw [if_pos hq]
      apply unsubscribe_eq_none
      exact lookup_filter_ne b.subscribers u
    · rw [if_neg hq]
      have hl' : (List.map (fun p => (p.1, if p.1 = u then qs.filter (fun x => x ≠ q) else p.2)) b.subscribers).lookup u = some (qs.filter (fun x => x ≠ q)) := by
        rw [lookup_map_eq b.subscribers (fun k v => if k = u then qs.filter (fun x => x ≠ q) else v) u, hl]
        simp
      rw [unsubscribe_eq_some _ u q _ hl']
      have hidem : (qs.filter (fun x => x ≠ q)).filter (fun x => x ≠ q) = qs.filter (fun x => x ≠ q) := by
        rw [List.filter_filter]
        simp
      rw [hidem, if_neg hq]
      congr 1
      rw [List.map_map]
      apply List.map_congr_left
      intro p _
      by_cases hc : p.1 = u <;> simp [Function.comp, hc]

/-! Reachable broker states: arbitrary interleavings of the three
registry operations, starting from the freshly-constructed broker. -/

/-- One call against the shared broker: `subscribe`, `unsubscribe`
(with the handle the caller holds), or `publish`. -/
inductive BrokerOp where
  | sub (user_id : String)
  | unsub (user_id : String) (q : Nat)
  | pub (user_id : String) (event_type : String) (data : JsonObj)
deriving DecidableEq, Repr

/-- Apply one broker call to the state. -/
def applyOp (b : SSEBroker) : BrokerOp → SSEBroker
  | .sub u => (b.subscribe u).1
  | .unsub u q => b.unsubscribe u q
  | .pub u et d => b.publish u et d

/-- The broker state after a finite call sequence issued against a
freshly-constructed `SSEBroker`. -/
def runOps (ops : List BrokerOp) : SSEBroker :=
  ops.foldl applyOp SSEBroker.empty

/-- Registry invariant: every user entry holds a non-empty channel set. -/
def entriesNonempty (b : SSEBroker) : Prop :=
  ∀ p ∈ b.subscribers, p.2 ≠ []

theorem applyOp_entriesNonempty (b : SSEBroker) (op : BrokerOp)
    (h : entriesNonempty b) : entriesNonempty (applyOp b op) := by
  cases op with
  | sub u =>
    intro p hp
    cases hl : b.subscribers.lookup u with
    | some qs =>
      rw [show applyOp b (.sub u) = (b.subscribe u).1 from rfl,
        subscribe_eq_some b u qs hl] at hp
      obtain ⟨p0, hp0, rfl⟩ := List.mem_map.mp hp
      by_cases hc : p0.1 = u
      · simp [hc]
      · simpa [hc] using h p0 hp0
    | none =>
      rw [show applyOp b (.sub u) = (b.subscribe u).1 from rfl,
        subscribe_eq_none b u hl] at hp
      rcases List.mem_append.mp hp with h1 | h2
      · exact h p h1
      · rw [List.mem_singleton] at h2
        subst h2
        simp
  | unsub u q =>
    intro p hp
    cases hl : b.subscribers.lookup u with
    | none =>
      rw [show applyOp b (.unsub u q) = b.unsubscribe u q from rfl,
        unsubscribe_eq_none b u q hl] at hp
      exact h p hp
    | some qs =>
      rw [show applyOp b (.unsub u q) = b.unsubscribe u q from rfl,
        unsubscribe_eq_some b u q qs hl] at hp
      by_cases hq : qs.filter (fun x => x ≠ q) = []
      · rw [if_pos hq] at hp
        exact h p (List.mem_of_mem_filter hp)
      · rw [if_neg hq] at hp
        obtain ⟨p0, hp0, rfl⟩ := List.mem_map.mp hp
        by_cases hc : p0.1 = u
        · simpa [hc] using hq
        · simpa [hc] using h p0 hp0
  | pub u et d =>
    intro p hp
    rw [show applyOp b (.pub u et d) = b.publish u et d from rfl,
      publish_subscribers] at hp
    exact h p hp

theorem foldl_entriesNonempty (ops : List BrokerOp) (b : SSEBroker)
    (h : entriesNonempty b) : entriesNonempty (ops.foldl applyOp b) := by
  induction ops generalizing b with
  | nil => exact h
  | cons op rest ih => exact ih _ (applyOp_entriesNonempty b op h)

/-- C9: for every finite sequence of subscribe/unsubscribe/publish calls
starting from an empty broker, every user entry in the registry maps to a
non-empty channel set: `unsubscribe` prunes an entry once its set empties
and `publish` never creates one. -/
theorem C9_registry_entries_nonempty (ops : List BrokerOp) :
    ∀ p ∈ (runOps ops).subscribers, p.2 ≠ [] :=
  foldl_entriesNonempty ops SSEBroker.empty (by intro p hp; simp [SSEBroker.empty] at hp)

/-- Witness for C9: after one subscribe/publish/unsubscribe interleaving,
the single surviving registry entry indeed has a non-empty channel set. -/
theorem C9_registry_entries_nonempty_witness :
    ("a", [0, 1]) ∈ (runOps [BrokerOp.sub "a", BrokerOp.sub "a",
        BrokerOp.pub "a" "notification" [("n", "1")], BrokerOp.unsub "a" 5,
        BrokerOp.sub "b", BrokerOp.unsub "b" 2]).subscribers ∧
    ([0, 1] : List Nat) ≠ [] :=
  ⟨by decide, C9_registry_entries_nonempty [BrokerOp.sub "a", BrokerOp.sub "a",
      BrokerOp.pub "a" "notification" [("n", "1")], BrokerOp.unsub "a" 5,
      BrokerOp.sub "b", BrokerOp.unsub "b" 2] ("a", [0, 1]) (by decide)⟩

/-! Authentication (src/app/auth.py). -/

/-- Seconds in the session max-age window: `SESSION_MAX_AGE = 60*60*24*7`
(src/app/auth.py line 21). -/
def SESSION_MAX_AGE : Nat := 60 * 60 * 24 * 7

/-- Type of the keyed signing primitive of `URLSafeTimedSerializer`:
from the server secret, the serialised payload and the embedded issuance
timestamp to a signature string. Taken as a parameter so theorems state
exactly which signature facts they rely on. -/
abbrev SigFun := String → List (String × String) → Nat → String

/-- The decoded form of an `itsdangerous` timed token: a string-keyed
payload dict, the issuance timestamp the serialiser embeds, and the
signature over both. Models the opaque session cookie string. -/
structure SignedCapsule where
  payload : List (String × String)
  ts : Nat
  sig : String
deriving DecidableEq, Repr

/-- `SessionManager.create_session` (src/app/auth.py lines 28-29):
`serializer.dumps({"uid": user_id})`, which embeds the current time and
signs payload plus timestamp with the server secret. -/
def create_session (sign : SigFun) (secret : String) (now : Nat)
    (user_id : String) : SignedCapsule :=
  ⟨[("uid", user_id)], now, sign secret [("uid", user_id)] now⟩

/-- `SessionManager.validate_session` (src/app/auth.py lines 31-36):
`serializer.loads(token, max_age=SESSION_MAX_AGE)` recomputes the
signature and rejects a stale timestamp (`BadSignature` /
`SignatureExpired`), then `data["uid"]` raises `KeyError` when the
payload lacks the key; all three are caught and become `None`. -/
def validate_session (sign : SigFun) (secret : String) (now : Nat)
    (tok : SignedCapsule) : Option String :=
  if tok.sig = sign secret tok.payload tok.ts ∧ now - tok.ts ≤ SESSION_MAX_AGE then
    tok.payload.lookup "uid"
  else
    none

/-- A row of the `users` table (src/app/models.py lines 33-44);
timestamps and relationship fields are irrelevant to the claims and
omitted. -/
structure User where
  id : String
  sub : String
  email : String
  name : String
deriving DecidableEq, Repr

/-- A row of the `client_tokens` table (src/app/models.py lines 68-80). -/
structure ClientToken where
  id : String
  user_id : String
  token_hash : String
  name : String
  device_type : String
  last_used_at : Option Nat
  created_at : Nat
  expires_at : Option Nat
deriving DecidableEq, Repr

/-- `get_current_user_from_session` (src/app/auth.py lines 118-131):
read the session cookie, validate it, then
`select(User).where(User.id == user_id)` / `scalar_one_or_none()`. -/
def get_current_user_from_session (sign : SigFun) (secret : String) (now : Nat)
    (cookie : Option SignedCapsule) (users : List User) : Option User :=
  match cookie with
  | none => none
  | some c =>
    match validate_session sign secret now c with
    | none => none
    | some user_id => users.find? (fun u => u.id == user_id)

/-- `get_current_user_from_token` (src/app/auth.py lines 134-152): parse
the `Authorization: Bearer ` header, load every `ClientToken` row and
`bcrypt.checkpw` the raw token against each candidate hash; on the first
match, stamp `last_used_at` and look the owning user up
(`scalar_one_or_none`); with no match return `None`. Returns the
resolved user together with the token table after the `last_used_at`
commit. -/
def get_current_user_from_token (checkpw : String → String → Bool)
    (authHeader : String) (now : Nat) (tokens : List ClientToken)
    (users : List User) : Option User × List ClientToken :=
  if "Bearer ".data.isPrefixOf authHeader.data then
    match tokens.find? (fun ct => checkpw (⟨authHeader.data.drop 7⟩ : String) ct.token_hash) with
    | none => (none, tokens)
    | some ct =>
      (users.find? (fun u => u.id == ct.user_id),
       tokens.map (fun t => if t.id = ct.id then { t with last_used_at := some now } else t))
  else
    (none, tokens)

/-- `get_current_user` (src/app/auth.py lines 155-166): session first,
bearer token as fallback, otherwise a uniform
`HTTPException(401, "Not authenticated")`, modelled as `Except.error ()`
(no credential-specific detail is carried). -/
def get_current_user (sign : SigFun) (secret : String) (now : Nat)
    (cookie : Option SignedCapsule) (checkpw : String → String → Bool)
    (authHeader : String) (tokens : List ClientToken) (users : List User) :
    Except Unit User × List ClientToken :=
  match get_current_user_from_session sign secret now cookie users with
  | some u => (.ok u, tokens)
  | none =>
    match get_current_user_from_token checkpw authHeader now tokens users with
    | (some u, tokens') => (.ok u, tokens')
    | (none, tokens') => (.error (), tokens')

/-- `hash_token` (src/app/auth.py lines 184-185): bcrypt salted hash of
the plaintext; the bcrypt primitive is the `hashpw` parameter. -/
def hash_token (hashpw : String → String) (token : String) : String :=
  hashpw token

/-- `create_token` (src/app/routes/tokens.py lines 28-50): hash the
freshly generated plaintext (`generate_api_token`, a random string,
passed in as `plain`), insert the row, and return the one-time plaintext
alongside the stored table. -/
def create_token (hashpw : String → String) (tokens : List ClientToken)
    (plain tid user_id name device_type : String) (now : Nat) :
    List ClientToken × String :=
  (tokens ++ [⟨tid, user_id, hash_token hashpw plain, name, device_type, none, now, none⟩],
   plain)

/-- `revoke_token` (src/app/routes/tokens.py lines 53-67): look the row
up by id and owning user (404 when absent, modelled as `Except.error ()`)
and delete it by primary key. -/
def revoke_token (tokens : List ClientToken) (user_id token_id : String) :
    Except Unit (List ClientToken) :=
  match tokens.find? (fun ct => ct.id == token_id && ct.user_id == user_id) with
  | none => .error ()
  | some _ => .ok (tokens.filter (fun ct => ct.id ≠ token_id))

/-- C6: a session created for a user validates back to that user id
within the 7-day window, and validation rejects outright (returns
nothing, not a partial result) on a signature mismatch, an expired
timestamp, or a payload without the `uid` key. -/
theorem C6_session_roundtrip_and_rejection (sign : SigFun) (secret : String) :
    (∀ user_id t0 now, now - t0 < SESSION_MAX_AGE →
      validate_session sign secret now (create_session sign secret t0 user_id) = some user_id) ∧
    (∀ now tok, tok.sig ≠ sign secret tok.payload tok.ts →
      validate_session sign secret now tok = none) ∧
    (∀ now tok, SESSION_MAX_AGE < now - tok.ts →
      validate_session sign secret now tok = none) ∧
    (∀ now tok, tok.payload.lookup "uid" = none →
      validate_session sign secret now tok = none) := by
  refine ⟨?_, ?_, ?_, ?_⟩
  · intro user_id t0 now h
    unfold validate_session create_session
    rw [if_pos ⟨rfl, le_of_lt h⟩]
    rfl
  · intro now tok h
    unfold validate_session
    rw [if_neg (fun hc => h hc.1)]
  · intro now tok h
    unfold validate_session
    rw [if_neg (fun hc => absurd hc.2 (not_le.mpr h))]
  · intro now tok h
    unfold validate_session
    by_cases hc : tok.sig = sign secret tok.payload tok.ts ∧ now - tok.ts ≤ SESSION_MAX_AGE
    · rw [if_pos hc]; exact h
    · rw [if_neg hc]

/-- A concrete signing function for exercising the session theorems. -/
def sigW : SigFun := fun _ _ _ => "sg"

/-- Witness for C6 at concrete inputs: round trip two seconds after
issuance, rejection of a wrong signature, of an expired token, and of a
payload missing the `uid` key. -/
theorem C6_session_roundtrip_and_rejection_witness :
    validate_session sigW "k" 3 (create_session sigW "k" 1 "u1") = some "u1" ∧
    validate_session sigW "k" 0 ⟨[("uid", "u1")], 0, "bad"⟩ = none ∧
    validate_session sigW "k" (SESSION_MAX_AGE + 5) ⟨[("uid", "u1")], 0, "sg"⟩ = none ∧
    validate_session sigW "k" 0 ⟨[("id", "u1")], 0, "sg"⟩ = none :=
  ⟨(C6_session_roundtrip_and_rejection sigW "k").1 "u1" 1 3 (by decide),
   (C6_session_roundtrip_and_rejection sigW "k").2.1 0 ⟨[("uid", "u1")], 0, "bad"⟩ (by decide),
   (C6_session_roundtrip_and_rejection sigW "k").2.2.1 (SESSION_MAX_AGE + 5)
     ⟨[("uid", "u1")], 0, "sg"⟩ (by decide),
   (C6_session_roundtrip_and_rejection sigW "k").2.2.2 0 ⟨[("id", "u1")], 0, "sg"⟩ (by decide)⟩

/-- C4: `get_current_user` resolves the session first and returns its
user whenever the session resolves, regardless of any bearer token on
the request; with no resolvable session it falls back to the bearer
token; and with neither it fails with the uniform unauthenticated
rejection carrying no credential-specific detail. -/
theorem C4_identity_resolution_precedence (sign : SigFun) (secret : String) (now : Nat)
    (cookie : Option SignedCapsule) (checkpw : String → String → Bool)
    (authHeader : String) (tokens : List ClientToken) (users : List User) :
    (∀ su, get_current_user_from_session sign secret now cookie users = some su →
      get_current_user sign secret now cookie checkpw authHeader tokens users
        = (.ok su, tokens)) ∧
    (get_current_user_from_session sign secret now cookie users = none →
      ∀ tu tokens',
        get_current_user_from_token checkpw authHeader now tokens users = (some tu, tokens') →
        get_current_user sign secret now cookie checkpw authHeader tokens users
          = (.ok tu, tokens')) ∧
    (get_current_user_from_session sign secret now cookie users = none →
      (get_current_user_from_token checkpw authHeader now tokens users).1 = none →
      (get_current_user sign secret now cookie checkpw authHeader tokens users).1
        = .error ()) := by
  refine ⟨?_, ?_, ?_⟩
  · intro su h
    unfold get_current_user
    rw [h]
  · intro h tu tokens' ht
    unfold get_current_user
    rw [h, ht]
  · intro h ht
    unfold get_current_user
    rw [h]
    cases hct : get_current_user_from_token checkpw authHeader now tokens users with
    | mk fst snd =>
      rw [hct] at ht
      cases fst with
      | none => rfl
      | some u => simp at ht

/-- Concrete users for the authentication witnesses. -/
def userA : User := ⟨"u1", "s1", "a@example.org", "A"⟩

/-- Second concrete user, owner of the bearer token in the C4 witness. -/
def userB : User := ⟨"u2", "s2", "b@example.org", "B"⟩

/-- A concrete bcrypt stand-in pair: `hashW` appends a marker, `checkW`
recomputes and compares, so `checkW raw (hashW secret)` holds exactly
when `raw = secret`. -/
def hashW : String → String := fun s => s ++ "#"

/-- Companion verifier for `hashW`. -/
def checkW : String → String → Bool := fun raw h => raw ++ "#" == h

/-- A stored token owned by `userB`, matching plaintext `tok`. -/
def tokenB : ClientToken := ⟨"t1", "u2", "tok#", "phone", "other", none, 0, none⟩

/-- Witness for C4 at concrete inputs: with a valid session for `u1` and
a valid bearer token of `u2` both present, resolution returns `u1`; with
no cookie the same token resolves `u2` (and stamps `last_used_at`); with
no cookie and a malformed header the result is the uniform rejection. -/
theorem C4_identity_resolution_precedence_witness :
    get_current_user sigW "k" 0 (some (create_session sigW "k" 0 "u1")) checkW
        "Bearer tok" [tokenB] [userA, userB] = (.ok userA, [tokenB]) ∧
    get_current_user sigW "k" 0 none checkW "Bearer tok" [tokenB] [userA, userB]
        = (.ok userB, [⟨"t1", "u2", "tok#", "phone", "other", some 0, 0, none⟩]) ∧
    (get_current_user sigW "k" 0 none checkW "nothing" [tokenB] [userA, userB]).1
        = .error () :=
  ⟨(C4_identity_resolution_precedence sigW "k" 0 (some (create_session sigW "k" 0 "u1"))
      checkW "Bearer tok" [tokenB] [userA, userB]).1 userA (by decide),
   (C4_identity_resolution_precedence sigW "k" 0 none checkW "Bearer tok" [tokenB]
      [userA, userB]).2.1 (by decide) userB
      [⟨"t1", "u2", "tok#", "phone", "other", some 0, 0, none⟩] (by decide),
   (C4_identity_resolution_precedence sigW "k" 0 none checkW "nothing" [tokenB]
      [userA, userB]).2.2 (by decide) (by decide)⟩

theorem verify_none_of_no_match (checkpw : String → String → Bool)
    (authHeader : String) (now : Nat) (tokens : List ClientToken) (users : List User)
    (h : ∀ ct ∈ tokens, checkpw (⟨authHeader.data.drop 7⟩ : String) ct.token_hash = false) :
    (get_current_user_from_token checkpw authHeader now tokens users).1 = none := by
  unfold get_current_user_from_token
  by_cases hp : "Bearer ".data.isPrefixOf authHeader.data
  · rw [if_pos hp]
    have hf : tokens.find?
        (fun ct => checkpw (⟨authHeader.data.drop 7⟩ : String) ct.token_hash) = none :=
      List.find?_eq_none.mpr (fun ct hct => by simp [h ct hct])
    rw [hf]
  · rw [if_neg hp]

theorem find?_append_of_none {α : Type} (p : α → Bool) (l1 l2 : List α)
    (h : l1.find? p = none) : (l1 ++ l2).find? p = l2.find? p := by
  induction l1 with
  | nil => simp
  | cons a t ih =>
    cases hb : p a with
    | true =>
      rw [List.find?_cons_of_pos _ hb] at h
      exact Option.noConfusion h
    | false =>
      rw [List.find?_cons_of_neg _ (by simp [hb])] at h
      rw [List.cons_append, List.find?_cons_of_neg _ (by simp [hb])]
      exact ih h

/-- C5: the verifier decides only by scanning the stored candidate set —
if no stored hash matches the raw bearer token, resolution is invalid —
and consequently, once `revoke_token` deletes a token's row, the
previously-valid plaintext (which matched only that row) fails
verification. -/
theorem C5_verify_scan_and_revocation (checkpw : String → String → Bool)
    (authHeader : String) (now : Nat) (tokens : List ClientToken)
    (users : List User) (uid tid : String) :
    ((∀ ct ∈ tokens, checkpw (⟨authHeader.data.drop 7⟩ : String) ct.token_hash = false) →
      (get_current_user_from_token checkpw authHeader now tokens users).1 = none) ∧
    (∀ tokens', revoke_token tokens uid tid = .ok tokens' →
      (∀ ct ∈ tokens, checkpw (⟨authHeader.data.drop 7⟩ : String) ct.token_hash = true →
        ct.id = tid) →
      (get_current_user_from_token checkpw authHeader now tokens' users).1 = none) := by
  constructor
  · exact verify_none_of_no_match checkpw authHeader now tokens users
  · intro tokens' hrv hmatch
    have htk : tokens' = tokens.filter (fun ct => ct.id ≠ tid) := by
      unfold revoke_token at hrv
      cases hf : tokens.find? (fun ct => ct.id == tid && ct.user_id == uid) with
      | none =>
        rw [hf] at hrv
        exact Except.noConfusion hrv
      | some ct =>
        rw [hf] at hrv
        injection hrv with h2
        exact h2.symm
    subst htk
    apply verify_none_of_no_match
    intro ct hct
    have hmem := List.mem_of_mem_filter hct
    have hne : ct.id ≠ tid := by simpa using List.of_mem_filter hct
    cases hb : checkpw (⟨authHeader.data.drop 7⟩ : String) ct.token_hash with
    | false => rfl
    | true => exact absurd (hmatch ct hmem hb) hne

/-- A stored token owned by `userA`, matching plaintext `abc`, used by
the revocation witness. -/
def tokenC : ClientToken := ⟨"t2", "u1", "abc#", "laptop", "other", none, 0, none⟩

/-- Witness for C5 at concrete inputs: a bearer token matching no stored
hash resolves to nothing, and after revoking `tokenC` its previously
valid plaintext `abc` also resolves to nothing. -/
theorem C5_verify_scan_and_revocation_witness :
    (get_current_user_from_token checkW "Bearer zzz" 0 [tokenC] [userA]).1 = none ∧
    (get_current_user_from_token checkW "Bearer abc" 0 [] [userA]).1 = none :=
  ⟨(C5_verify_scan_and_revocation checkW "Bearer zzz" 0 [tokenC] [userA] "u1" "t2").1
      (by decide),
   (C5_verify_scan_and_revocation checkW "Bearer abc" 0 [tokenC] [userA] "u1" "t2").2
      [] (by rfl) (by decide)⟩

/-- C7: issuing a token via `create_token` and immediately verifying the
returned plaintext resolves the issuing user (given bcrypt's contract
that the plaintext verifies against its own hash and the fresh random
plaintext matches no pre-existing hash), while any string matching no
stored token's hash never resolves. -/
theorem C7_issue_then_verify (checkpw : String → String → Bool)
    (hashpw : String → String) (tokens : List ClientToken)
    (plain tid uid name device_type : String) (tnow now : Nat)
    (users : List User) (user : User) (authHeader : String) :
    (("Bearer ".data.isPrefixOf authHeader.data = true) →
      ((⟨authHeader.data.drop 7⟩ : String) = plain) →
      checkpw plain (hash_token hashpw plain) = true →
      (∀ ct ∈ tokens, checkpw plain ct.token_hash = false) →
      users.find? (fun u => u.id == uid) = some user →
      (get_current_user_from_token checkpw authHeader now
        (create_token hashpw tokens plain tid uid name device_type tnow).1 users).1
        = some user) ∧
    (∀ (other : String) (tokens₁ : List ClientToken),
      (∀ ct ∈ tokens₁, checkpw (⟨other.data.drop 7⟩ : String) ct.token_hash = false) →
      (get_current_user_from_token checkpw other now tokens₁ users).1 = none) := by
  constructor
  · intro hpre hdrop hck hfresh huser
    unfold get_current_user_from_token create_token
    rw [if_pos hpre, hdrop]
    have hnone : tokens.find? (fun ct => checkpw plain ct.token_hash) = none :=
      List.find?_eq_none.mpr (fun ct hct => by simp [hfresh ct hct])
    have hnew : List.find? (fun ct => checkpw plain ct.token_hash)
        [(⟨tid, uid, hash_token hashpw plain, name, device_type, none, tnow, none⟩ : ClientToken)]
        = some ⟨tid, uid, hash_token hashpw plain, name, device_type, none, tnow, none⟩ :=
      List.find?_cons_of_pos _ hck
    rw [find?_append_of_none _ tokens _ hnone, hnew]
    exact huser
  · intro other tokens₁ h
    exact verify_none_of_no_match checkpw other now tokens₁ users h

/-- Witness for C7 at concrete inputs: issue plaintext `abc` for `u1`
into an empty store, verify it back to `userA`; verify a non-matching
string to nothing. -/
theorem C7_issue_then_verify_witness :
    (get_current_user_from_token checkW "Bearer abc" 5
      (create_token hashW [] "abc" "t9" "u1" "laptop" "other" 0).1 [userA]).1
      = some userA ∧
    (get_current_user_from_token checkW "Bearer zzz" 5
      (create_token hashW [] "abc" "t9" "u1" "laptop" "other" 0).1 [userA]).1 = none :=
  ⟨(C7_issue_then_verify checkW hashW [] "abc" "t9" "u1" "laptop" "other" 0 5 [userA]
      userA "Bearer abc").1 (by decide) (by decide) (by decide) (by decide) (by decide),
   (C7_issue_then_verify checkW hashW [] "abc" "t9" "u1" "laptop" "other" 0 5 [userA]
      userA "Bearer abc").2 "Bearer zzz"
      (create_token hashW [] "abc" "t9" "u1" "laptop" "other" 0).1 (by decide)⟩

/-! Notifications (src/app/models.py, src/app/routes/notifications.py). -/

/-- `Priority` enumeration (src/app/models.py lines 14-18). -/
inductive Priority where
  | low
  | medium
  | high
  | critical
deriving DecidableEq, Repr

/-- `Status` enumeration (src/app/models.py lines 21-24). -/
inductive Status where
  | unread
  | read
  | archived
deriving DecidableEq, Repr

/-- The `.value` of the `StrEnum` member, as published in the
`status_change` event payload. -/
def Status.value : Status → String
  | .unread => "unread"
  | .read => "read"
  | .archived => "archived"

/-- A row of the `notifications` table (src/app/models.py lines 47-63). -/
structure Notification where
  id : String
  user_id : String
  title : String
  message : Option String
  priority : Priority
  status : Status
  source : Option String
  created_at : Nat
  read_at : Option Nat
  metadata_ : Option JsonObj
deriving DecidableEq, Repr

/-- The PATCH body `NotificationUpdate {status?}`
(src/app/schemas.py lines 22-23): an omitted or null `status` is
`none`. -/
structure NotificationUpdate where
  status : Option Status
deriving DecidableEq, Repr

/-- The status-update block of `update_notification`
(src/app/routes/notifications.py lines 147-150): assign the new status
when one was sent, and stamp `read_at` only when the new status is
`read` and `read_at` is still null. -/
def applyStatusUpdate (n : Notification) (payload : NotificationUpdate)
    (now : Nat) : Notification :=
  match payload.status with
  | none => n
  | some s =>
    let n' := { n with status := s }
    if s = Status.read ∧ n'.read_at = none then { n' with read_at := some now } else n'

/-- `update_notification` (src/app/routes/notifications.py lines
131-162): look the notification up by id and owner (404 when absent,
modelled as `Except.error ()`), apply the status update, commit, publish
the `status_change` event for the owner, and return the refreshed
notification as the response; the broker publish targets the refreshed
row's id and status. -/
def update_notification (db : List Notification) (b : SSEBroker)
    (user_id notification_id : String) (payload : NotificationUpdate)
    (now : Nat) : Except Unit (List Notification × SSEBroker × Notification) :=
  match db.find? (fun n => n.id == notification_id && n.user_id == user_id) with
  | none => .error ()
  | some n =>
    let n' := applyStatusUpdate n payload now
    .ok (db.map (fun m => if m.id = n.id then n' else m),
         b.publish user_id "status_change" [("id", n'.id), ("status", n'.status.value)],
         n')

theorem applyStatusUpdate_read_sets (n : Notification) (t : Nat)
    (hnull : n.read_at = none) :
    applyStatusUpdate n ⟨some .read⟩ t = { n with status := .read, read_at := some t } := by
  unfold applyStatusUpdate
  simp only
  rw [if_pos ⟨trivial, hnull⟩]

theorem applyStatusUpdate_read_keeps (n : Notification) (s : Status) (t : Nat)
    (hset : n.read_at ≠ none) :
    applyStatusUpdate n ⟨some s⟩ t = { n with status := s } := by
  unfold applyStatusUpdate
  simp only
  rw [if_neg (fun hc => hset hc.2)]

/-- C8: a PATCH to `read` on a notification whose `read_at` is still null
succeeds and returns it with status `read` and `read_at` stamped to the
request time, and re-applying a `read` update afterwards leaves
`read_at` at the original stamp: it is set exactly once, at the first
transition into `read` while null. -/
theorem C8_read_at_set_exactly_once (db : List Notification) (b : SSEBroker)
    (user_id notification_id : String) (n : Notification) (t1 t2 : Nat)
    (hfind : db.find? (fun m => m.id == notification_id && m.user_id == user_id) = some n)
    (hnull : n.read_at = none) :
    (∃ db1 b1, update_notification db b user_id notification_id ⟨some .read⟩ t1
        = .ok (db1, b1, applyStatusUpdate n ⟨some .read⟩ t1)) ∧
    (applyStatusUpdate n ⟨some .read⟩ t1).status = .read ∧
    (applyStatusUpdate n ⟨some .read⟩ t1).read_at = some t1 ∧
    (applyStatusUpdate (applyStatusUpdate n ⟨some .read⟩ t1) ⟨some .read⟩ t2).read_at
      = some t1 := by
  have h1 := applyStatusUpdate_read_sets n t1 hnull
  refine ⟨?_, by rw [h1], by rw [h1], ?_⟩
  · unfold update_notification
    rw [hfind]
    exact ⟨_, _, rfl⟩
  · rw [h1, applyStatusUpdate_read_keeps _ _ _ (by simp)]

/-- An unread stored notification for the update-endpoint witnesses. -/
def n0 : Notification :=
  ⟨"n1", "u1", "Test alert", none, .high, .unread, some "ci", 0, none, none⟩

/-- Witness for C8 at concrete inputs: the first `read` PATCH on `n0`
stamps `read_at := 3`, and a later `read` update leaves the stamp. -/
theorem C8_read_at_set_exactly_once_witness :
    (∃ db1 b1, update_notification [n0] SSEBroker.empty "u1" "n1" ⟨some .read⟩ 3
        = .ok (db1, b1, applyStatusUpdate n0 ⟨some .read⟩ 3)) ∧
    (applyStatusUpdate n0 ⟨some .read⟩ 3).status = .read ∧
    (applyStatusUpdate n0 ⟨some .read⟩ 3).read_at = some 3 ∧
    (applyStatusUpdate (applyStatusUpdate n0 ⟨some .read⟩ 3) ⟨some .read⟩ 9).read_at
      = some 3 :=
  C8_read_at_set_exactly_once [n0] SSEBroker.empty "u1" "n1" n0 3 9 (by decide) (by decide)

theorem map_update_self (db : List Notification) (n : Notification)
    (hmem : n ∈ db) (hids : (db.map (fun m => m.id)).Nodup) :
    db.map (fun m => if m.id = n.id then n else m) = db := by
  have hcg : db.map (fun m => if m.id = n.id then n else m) = db.map id := by
    apply List.map_congr_left
    intro m hm
    by_cases h : m.id = n.id
    · rw [if_pos h]
      exact (List.inj_on_of_nodup_map hids hm hmem h).symm
    · rw [if_neg h]
      rfl
  rw [hcg, List.map_id]

/-- C10: a PATCH whose body carries no status leaves the stored
notification (and the whole table) unchanged, returns the current
representation, and still publishes a `status_change` event carrying the
unchanged status, which lands on every channel of the owner. -/
theorem C10_patch_without_status_is_frame (db : List Notification) (b : SSEBroker)
    (user_id notification_id : String) (n : Notification) (now : Nat)
    (hids : (db.map (fun m => m.id)).Nodup)
    (hfind : db.find? (fun m => m.id == notification_id && m.user_id == user_id) = some n) :
    update_notification db b user_id notification_id ⟨none⟩ now
      = .ok (db,
          b.publish user_id "status_change" [("id", n.id), ("status", n.status.value)], n) ∧
    (b.wf → ∀ qs, b.subscribers.lookup user_id = some qs → ∀ q ∈ qs,
      ∃ evs, b.queues.lookup q = some evs ∧
        (b.publish user_id "status_change"
            [("id", n.id), ("status", n.status.value)]).queues.lookup q
          = some (evs ++
              [⟨"status_change", jsonDumps [("id", n.id), ("status", n.status.value)]⟩])) := by
  constructor
  · unfold update_notification
    rw [hfind]
    have hmap := map_update_self db n (List.mem_of_find?_eq_some hfind) hids
    have happ : applyStatusUpdate n ⟨none⟩ now = n := rfl
    simp only
    rw [happ, hmap]
  · intro hwf qs hqs q hq
    have hmem : (user_id, qs) ∈ b.subscribers := mem_of_lookup _ _ _ hqs
    obtain ⟨evs, hevs⟩ := Option.isSome_iff_exists.mp (hwf (user_id, qs) hmem q hq)
    refine ⟨evs, hevs, ?_⟩
    rw [publish_queues_lookup b user_id _ _ qs hqs q, hevs]
    simp [hq]

/-- Broker with one open channel of user `u1`, for the C10 witness. -/
def bU : SSEBroker := (SSEBroker.empty.subscribe "u1").1

/-- Witness for C10 at concrete inputs: the status-less PATCH on `n0`
returns the table and notification unchanged and appends exactly one
`status_change` event to the owner's single channel. -/
theorem C10_patch_without_status_is_frame_witness :
    update_notification [n0] bU "u1" "n1" ⟨none⟩ 7
      = .ok ([n0],
          bU.publish "u1" "status_change" [("id", n0.id), ("status", n0.status.value)], n0) ∧
    ∃ evs, bU.queues.lookup 0 = some evs ∧
      (bU.publish "u1" "status_change"
          [("id", n0.id), ("status", n0.status.value)]).queues.lookup 0
        = some (evs ++
            [⟨"status_change", jsonDumps [("id", n0.id), ("status", n0.status.value)]⟩]) :=
  ⟨(C10_patch_without_status_is_frame [n0] bU "u1" "n1" n0 7 (by decide) (by decide)).1,
   (C10_patch_without_status_is_frame [n0] bU "u1" "n1" n0 7 (by decide) (by decide)).2
     (by decide) [0] (by decide) 0 (by decide)⟩
